import Mathlib

/-!
# Verification of the ConnectPool repository

A shallow embedding of the `connectpool` Go package (files `connector.go`,
`pool.go` and the connector-set file) into Lean 4, together with proofs and
refutations of the specified properties.

Modelling conventions:

* Go `any` values (resources and panic payloads) are opaque to the pool, so
  they are modelled as `Nat`.  A `nil` resource is `Option.none`.
* User callbacks are modelled as total Lean functions; a callback that may
  panic is modelled as returning `Except PanicInfo _` (`.error p` = panic
  with payload `p`).  A `nil` function pointer (or a pointer to a `nil`
  function — the Go code checks both) is `Option.none`.
* `time.Time` / `time.Duration` values are `Int` (nanosecond counts); the
  ambient clock is passed explicitly as a `now : Int` argument to every
  operation that reads it.
* The `map[uint64]connector` registry is an association list
  `List (Nat × AtomicConnector)`.  Go map iteration order is unspecified;
  the list order plays that role.  `len` is the list length (keys are
  unique in every reachable state; theorems that need this carry a
  `Nodup` hypothesis).
* Each registry method of the Go code holds `connectorSetRWMutex` for the
  whole critical section it describes, so in this sequential embedding each
  method is a single atomic state transformer.
-/

namespace ConnectPool

/-- Opaque resource values produced by the user's connect callback. -/
abbrev Resource := Nat

/-- Opaque panic payloads. -/
abbrev PanicVal := Nat

/-- The `atomicConnector` struct of `connector.go`.  The buffered
`stopSignalChan` channel is used only by the timed-lease machinery
(`StartTimingWork`), which is inherently concurrent and not part of this
sequential embedding; the remaining fields are embedded directly.
`connect = none` models a `nil` connection variable. -/
structure AtomicConnector where
  connect : Option Resource
  isWorking : Bool
  lastWorkingTime : Int
  waitCloseState : Bool
deriving Repr, DecidableEq

/-- `IsFree`: `!c.isWorking.Load()`. -/
def AtomicConnector.IsFree (c : AtomicConnector) : Bool :=
  !c.isWorking

/-- `StartWorking`: `c.isWorking.Store(true)`. -/
def startWorking (c : AtomicConnector) : AtomicConnector :=
  { c with isWorking := true }

/-- `StopWorking`: stores `false` into `isWorking` and updates
`lastWorkingTime` to the current instant.  (The conditional send on
`stopSignalChan` only signals the timed-lease goroutine and does not change
any embedded field.) -/
def stopWorking (now : Int) (c : AtomicConnector) : AtomicConnector :=
  { c with isWorking := false, lastWorkingTime := now }

/-- `SinceLastWorkingTime`: returns `0` if the connector is working,
otherwise `time.Since(lastWorkingTime)`, i.e. `now - lastWorkingTime`. -/
def sinceLastWorkingTime (now : Int) (c : AtomicConnector) : Int :=
  if !c.IsFree then 0 else now - c.lastWorkingTime

/-- `newConnector`: builds the connector, stamps `lastWorkingTime` with the
current instant, then runs the connect callback under a panic guard.  A
`nil` callback or a panicking callback leaves `connect = none`; a panic is
captured (and forwarded to the panic handler, an effect with no bearing on
the resulting state). -/
def newConnector (now : Int) (connectMethod : Option (Except PanicVal Resource)) :
    AtomicConnector :=
  { connect :=
      match connectMethod with
      | none => none
      | some (Except.ok r) => some r
      | some (Except.error _) => none
    isWorking := false
    lastWorkingTime := now
    waitCloseState := false }

/-- Observable outcome of one `Do` call: whether (and with which argument)
the user function was invoked, and whether (and with which payload) a panic
was routed to the panic handler. -/
structure DoResult where
  callArg : Option (Option Resource)
  routedPanic : Option PanicVal
deriving Repr, DecidableEq

/-- `Do`: if the user function pointer is `nil` (or points to `nil`),
return without calling it; otherwise call it on `c.connect`.  A panic in
the call is recovered; if the panic-handler pointer is non-`nil` the payload
is forwarded to it. -/
def Do (c : AtomicConnector) (f : Option (Option Resource → Except PanicVal Unit))
    (dealPanicMethod : Option (PanicVal → Unit)) : DoResult :=
  match f with
  | none => { callArg := none, routedPanic := none }
  | some g =>
    match g c.connect with
    | Except.ok _ => { callArg := some c.connect, routedPanic := none }
    | Except.error p =>
      { callArg := some c.connect
        routedPanic := match dealPanicMethod with | none => none | some _ => some p }

/-! ## The connector set (`autoClearConnectorSet`) -/

/-- The `autoClearConnectorSet` struct: a token counter, a closed flag and
the keyed collection of connectors. -/
structure AutoClearConnectorSet where
  token : Nat
  closed : Bool
  connectorSet : List (Nat × AtomicConnector)
deriving Repr, DecidableEq

/-- The key set of the registry. -/
def keys (s : AutoClearConnectorSet) : List Nat :=
  s.connectorSet.map Prod.fst

/-- `Size`: `len(s.connectorSet)` under the read lock. -/
def Size (s : AutoClearConnectorSet) : Nat :=
  s.connectorSet.length

/-- The counting loop of `WorkingNumber`: `cnt := 0; for each v, if
`!v.IsFree()` then `cnt++`. -/
def workingLoop : List (Nat × AtomicConnector) → Nat → Nat
  | [], cnt => cnt
  | (_, v) :: rest, cnt => workingLoop rest (if !v.IsFree then cnt + 1 else cnt)

/-- `WorkingNumber`: runs the counting loop under the read lock. -/
def WorkingNumber (s : AutoClearConnectorSet) : Nat :=
  workingLoop s.connectorSet 0

/-- The scan loop of `GetFreeConnector` (run under the write lock): walk the
collection; at the first connector with `IsFree()`, mark it working and
return it.  Returns the found connector (if any) and the collection as left
behind by the loop. -/
def getFreeLoop : List (Nat × AtomicConnector) →
    Option (Nat × AtomicConnector) × List (Nat × AtomicConnector)
  | [] => (none, [])
  | (k, v) :: rest =>
    if v.IsFree then (some (k, startWorking v), (k, startWorking v) :: rest)
    else
      let r := getFreeLoop rest
      (r.1, (k, v) :: r.2)

/-- `GetFreeConnector`: the whole scan-and-mark runs inside one exclusive
(`Lock`) critical section, hence as one atomic transformer here. -/
def GetFreeConnector (s : AutoClearConnectorSet) :
    Option (Nat × AtomicConnector) × AutoClearConnectorSet :=
  let r := getFreeLoop s.connectorSet
  (r.1, { s with connectorSet := r.2 })

/-- The token-search loop of `AddConnector`: repeatedly increment the token
counter until the value is not already a key.  The Go loop is unbounded; in
every reachable state all keys were issued by the counter, so one increment
suffices.  The fuel argument (instantiated with `Size s + 1`) makes the
recursion structural without changing the result in reachable states. -/
def findToken : Nat → List Nat → Nat → Nat
  | 0, _, t => t + 1
  | fuel + 1, ks, t => if (t + 1) ∈ ks then findToken fuel ks (t + 1) else t + 1

/-- `AddConnector`: picks a fresh token, builds a new connector via
`newConnector`, and inserts it into the collection under the write lock.
Returns the new connector (with its token) and the updated registry.  Note
that the Go code performs no check of the `closed` flag here. -/
def AddConnector (now : Int) (connectMethod : Option (Except PanicVal Resource))
    (s : AutoClearConnectorSet) :
    (Nat × AtomicConnector) × AutoClearConnectorSet :=
  let tok := findToken (Size s + 1) (keys s) s.token
  let c := newConnector now connectMethod
  ((tok, c), { s with token := tok, connectorSet := (tok, c) :: s.connectorSet })

/-- `Close`: stores `true` into `closed` and clears the collection, under
the write lock. -/
def Close (s : AutoClearConnectorSet) : AutoClearConnectorSet :=
  { s with closed := true, connectorSet := [] }

/-- The scan phase of `Clear` (run under the read lock): build the removal
list, and record every `Do(closeMethod, …)` invocation as a
`(token, resource)` pair.  A connector whose connection variable is `nil`
is listed for removal without a close call (`value == nil` cannot occur:
`AddConnector` never inserts a `nil` interface); otherwise, if
`SinceLastWorkingTime() > maxFreeTime` it is listed for removal and the
close method is invoked on it via `Do`. -/
def clearScan (now maxFreeTime : Int) :
    List (Nat × AtomicConnector) → List Nat × List (Nat × Option Resource)
  | [] => ([], [])
  | (k, v) :: rest =>
    let r := clearScan now maxFreeTime rest
    if v.connect = none then (k :: r.1, r.2)
    else if maxFreeTime < sinceLastWorkingTime now v then
      (k :: r.1, (k, v.connect) :: r.2)
    else r

/-- `Clear`: scan phase under the read lock, then (when the removal list is
non-empty) delete the listed keys under the write lock.  Deleting each
listed key is expressed as filtering the collection; an empty removal list
filters nothing, so the `len(RemoveList) > 0` fast path is absorbed.
Returns the new registry and the list of close-method invocations. -/
def Clear (now maxFreeTime : Int) (s : AutoClearConnectorSet) :
    AutoClearConnectorSet × List (Nat × Option Resource) :=
  let r := clearScan now maxFreeTime s.connectorSet
  ({ s with connectorSet := s.connectorSet.filter (fun kv => decide (kv.1 ∉ r.1)) },
   r.2)

/-! ## The pool (`connectPool`) -/

/-- The `connectPool` configuration and its owned registry (the fields the
claims are about). -/
structure ConnectPoolState where
  cap : Nat
  connectMethod : Option (Except PanicVal Resource)
  pool : AutoClearConnectorSet
deriving Repr

/-- Mutating one connector through the pointer handed out by the registry:
the entry with the given key is updated in place. -/
def setKey (k : Nat) (f : AtomicConnector → AtomicConnector)
    (s : AutoClearConnectorSet) : AutoClearConnectorSet :=
  { s with connectorSet :=
      s.connectorSet.map (fun kv => if kv.1 = k then (kv.1, f kv.2) else kv) }

/-- Outcome of one iteration of the `for` loop in `searchConnector` when no
connector was obtained yet (`Connect == nil`). -/
inductive SpinOutcome where
  | add
  | yield
deriving Repr, DecidableEq

/-- One iteration of the `searchConnector` loop with `Connect == nil`: read
the cap; if `Size() < cap`, add a new connector (and return it); otherwise
`runtime.Gosched()` and go around again.  Note that the loop body contains
no call to `GetFreeConnector`; that call happens exactly once, before the
loop. -/
def searchLoopIter (cap : Nat) (s : AutoClearConnectorSet) : SpinOutcome :=
  if Size s < cap then SpinOutcome.add else SpinOutcome.yield

/-- `searchConnector` up to its first suspension: `GetFreeConnector` once;
if it misses and `Size() < Cap()`, grow via `AddConnector`.  Otherwise the
Go code spins (yield, re-check size, never re-calling `GetFreeConnector`),
which a sequential embedding renders as `none` — no connector is obtained
without an external change of the registry. -/
def searchConnector (now : Int) (p : ConnectPoolState) :
    Option (Nat × AtomicConnector) × AutoClearConnectorSet :=
  match GetFreeConnector p.pool with
  | (some kc, s') => (some kc, s')
  | (none, s') =>
    if Size s' < p.cap then
      let r := AddConnector now p.connectMethod s'
      (some r.1, r.2)
    else (none, s')

/-- `Register`: find a connector, call `StartWorking` on it, and return its
connection together with (the key on which to call) `StopWorking`.  The
result is the registered `(token, resource)` pair, or `none` when
`searchConnector` does not produce a connector. -/
def Register (now : Int) (p : ConnectPoolState) :
    Option (Nat × Option Resource) × AutoClearConnectorSet :=
  match searchConnector now p with
  | (none, s') => (none, s')
  | (some (k, c), s') => (some (k, c.connect), setKey k startWorking s')

/-- `connectPool.WorkingNumber`: `int(p.pool.WorkingNumber())`. -/
def PoolWorkingNumber (p : ConnectPoolState) : Nat :=
  WorkingNumber p.pool

/-- `connectPool.Size`: `p.pool.Size()`. -/
def PoolSize (p : ConnectPoolState) : Nat :=
  Size p.pool

/-! ## Helper lemmas -/

theorem isFree_true_iff (c : AtomicConnector) : c.IsFree = true ↔ c.isWorking = false := by
  simp [AtomicConnector.IsFree]

theorem isFree_false_iff (c : AtomicConnector) : c.IsFree = false ↔ c.isWorking = true := by
  simp [AtomicConnector.IsFree]

theorem startWorking_isWorking (c : AtomicConnector) : (startWorking c).isWorking = true := rfl

theorem getFreeLoop_none (l : List (Nat × AtomicConnector))
    (h : (getFreeLoop l).1 = none) :
    (getFreeLoop l).2 = l ∧ ∀ kv ∈ l, kv.2.isWorking = true := by
  induction l with
  | nil => simp [getFreeLoop]
  | cons hd rest ih =>
    obtain ⟨k, v⟩ := hd
    cases hv : v.IsFree with
    | true => simp [getFreeLoop, hv] at h
    | false =>
      simp only [getFreeLoop, hv, Bool.false_eq_true, if_false] at h ⊢
      obtain ⟨h2, hall⟩ := ih h
      refine ⟨by rw [h2], ?_⟩
      intro kv hkv
      rcases List.mem_cons.mp hkv with h' | h'
      · subst h'; exact (isFree_false_iff v).mp hv
      · exact hall kv h'

theorem getFreeLoop_some (l : List (Nat × AtomicConnector)) (k : Nat) (c : AtomicConnector)
    (h : (getFreeLoop l).1 = some (k, c)) :
    ∃ pre c₀ post, l = pre ++ (k, c₀) :: post ∧ c₀.isWorking = false ∧
      c = startWorking c₀ ∧
      (getFreeLoop l).2 = pre ++ (k, startWorking c₀) :: post ∧
      ∀ kv ∈ pre, kv.2.isWorking = true := by
  induction l with
  | nil => simp [getFreeLoop] at h
  | cons hd rest ih =>
    obtain ⟨k', v⟩ := hd
    cases hv : v.IsFree with
    | true =>
      simp only [getFreeLoop, hv, if_true, Option.some.injEq, Prod.mk.injEq] at h
      obtain ⟨hk, hc⟩ := h
      subst hk
      refine ⟨[], v, rest, rfl, (isFree_true_iff v).mp hv, hc.symm, ?_, by simp⟩
      simp [getFreeLoop, hv]
    | false =>
      simp only [getFreeLoop, hv, Bool.false_eq_true, if_false] at h
      obtain ⟨pre, c₀, post, hl, hw, hc, hres, hpre⟩ := ih h
      refine ⟨(k', v) :: pre, c₀, post, by rw [hl]; rfl, hw, hc, ?_, ?_⟩
      · simp only [getFreeLoop, hv, Bool.false_eq_true, if_false]
        rw [hres]; rfl
      · intro kv hkv
        rcases List.mem_cons.mp hkv with h' | h'
        · subst h'; exact (isFree_false_iff v).mp hv
        · exact hpre kv h'

theorem workingLoop_eq (l : List (Nat × AtomicConnector)) (n : Nat) :
    workingLoop l n = n + l.countP (fun kv => kv.2.isWorking) := by
  induction l generalizing n with
  | nil => simp [workingLoop]
  | cons hd rest ih =>
    obtain ⟨k, v⟩ := hd
    simp only [workingLoop, ih, List.countP_cons]
    by_cases hv : v.isWorking = true
    · simp [AtomicConnector.IsFree, hv]; omega
    · simp only [Bool.not_eq_true] at hv
      simp [AtomicConnector.IsFree, hv]

theorem workingNumber_eq_countBusy (s : AutoClearConnectorSet) :
    WorkingNumber s = s.connectorSet.countP (fun kv => kv.2.isWorking) := by
  simpa using workingLoop_eq s.connectorSet 0

theorem nodup_keys_unique {l : List (Nat × AtomicConnector)} {k : Nat}
    {x y : AtomicConnector} (hnd : (l.map Prod.fst).Nodup)
    (h1 : (k, x) ∈ l) (h2 : (k, y) ∈ l) : x = y := by
  induction l with
  | nil => cases h1
  | cons hd rest ih =>
    obtain ⟨k', v⟩ := hd
    simp only [List.map_cons, List.nodup_cons] at hnd
    rcases List.mem_cons.mp h1 with e1 | m1 <;> rcases List.mem_cons.mp h2 with e2 | m2
    · rw [Prod.mk.injEq] at e1 e2
      rw [e1.2, e2.2]
    · rw [Prod.mk.injEq] at e1
      exact absurd (e1.1 ▸ List.mem_map_of_mem Prod.fst m2) hnd.1
    · rw [Prod.mk.injEq] at e2
      exact absurd (e2.1 ▸ List.mem_map_of_mem Prod.fst m1) hnd.1
    · exact ih hnd.2 m1 m2

theorem map_setKeyFun_of_not_mem {l : List (Nat × AtomicConnector)} {k : Nat}
    (f : AtomicConnector → AtomicConnector) (hk : k ∉ l.map Prod.fst) :
    l.map (fun kv => if kv.1 = k then (kv.1, f kv.2) else kv) = l := by
  induction l with
  | nil => rfl
  | cons hd rest ih =>
    obtain ⟨k', v⟩ := hd
    simp only [List.map_cons, List.mem_cons] at hk
    push_neg at hk
    simp only [List.map_cons]
    rw [if_neg (Ne.symm hk.1), ih hk.2]

theorem setKeyFun_append {pre post : List (Nat × AtomicConnector)} {k : Nat}
    (x : AtomicConnector) (f : AtomicConnector → AtomicConnector)
    (hpre : k ∉ pre.map Prod.fst) (hpost : k ∉ post.map Prod.fst) :
    (pre ++ (k, x) :: post).map (fun kv => if kv.1 = k then (kv.1, f kv.2) else kv)
      = pre ++ (k, f x) :: post := by
  rw [List.map_append, List.map_cons, map_setKeyFun_of_not_mem f hpre,
    map_setKeyFun_of_not_mem f hpost, if_pos rfl]

theorem getFreeLoop_keys (l : List (Nat × AtomicConnector)) :
    (getFreeLoop l).2.map Prod.fst = l.map Prod.fst := by
  induction l with
  | nil => rfl
  | cons hd rest ih =>
    obtain ⟨k, v⟩ := hd
    cases hv : v.IsFree with
    | true => simp [getFreeLoop, hv]
    | false => simp [getFreeLoop, hv, ih]

theorem getFreeLoop_length (l : List (Nat × AtomicConnector)) :
    (getFreeLoop l).2.length = l.length := by
  induction l with
  | nil => rfl
  | cons hd rest ih =>
    obtain ⟨k, v⟩ := hd
    cases hv : v.IsFree with
    | true => simp [getFreeLoop, hv]
    | false => simp [getFreeLoop, hv, ih]

theorem getFreeLoop_some_pre_idle {l : List (Nat × AtomicConnector)} {k : Nat}
    {c : AtomicConnector} (h : (getFreeLoop l).1 = some (k, c)) :
    ∃ c₀, (k, c₀) ∈ l ∧ c₀.isWorking = false := by
  obtain ⟨pre, c₀, post, hl, hw, -, -, -⟩ := getFreeLoop_some l k c h
  exact ⟨c₀, by rw [hl]; exact List.mem_append_right _ (List.mem_cons_self _ _), hw⟩

/-! ## Claim theorems -/

/-- C1: `GetFreeConnector` never hands the same handle to two acquirers.
If a call returns handle `k`, then `k` was idle immediately before the call,
is busy (and still present) in the state the call leaves behind — the idle
check and the busy transition are one atomic step, as in the Go code where
both happen inside one `Lock()`-guarded critical section — and a subsequent
`GetFreeConnector` on the resulting state cannot return `k` again. -/
theorem getFreeConnector_exclusive (s : AutoClearConnectorSet) (k : Nat)
    (c : AtomicConnector) (hnd : (keys s).Nodup)
    (h : (GetFreeConnector s).1 = some (k, c)) :
    (∃ c₀, (k, c₀) ∈ s.connectorSet ∧ c₀.isWorking = false) ∧
    c.isWorking = true ∧
    (k, c) ∈ ((GetFreeConnector s).2).connectorSet ∧
    ∀ k' c', (GetFreeConnector (GetFreeConnector s).2).1 = some (k', c') → k' ≠ k := by
  have h' : (getFreeLoop s.connectorSet).1 = some (k, c) := h
  obtain ⟨pre, c₀, post, hl, hw, hc, hres, hpre⟩ := getFreeLoop_some _ _ _ h'
  have hmem : (k, c₀) ∈ s.connectorSet := by
    rw [hl]; exact List.mem_append_right _ (List.mem_cons_self _ _)
  have hset2 : ((GetFreeConnector s).2).connectorSet = pre ++ (k, startWorking c₀) :: post := hres
  refine ⟨⟨c₀, hmem, hw⟩, by rw [hc]; rfl, ?_, ?_⟩
  · rw [hset2, hc]
    exact List.mem_append_right _ (List.mem_cons_self _ _)
  · intro k' c' h2 hk
    have hnd' : (keys (GetFreeConnector s).2).Nodup := by
      have : keys (GetFreeConnector s).2 = keys s := getFreeLoop_keys s.connectorSet
      rw [this]; exact hnd
    have h2' : (getFreeLoop ((GetFreeConnector s).2).connectorSet).1 = some (k', c') := h2
    obtain ⟨c₁, hmem1, hidle1⟩ := getFreeLoop_some_pre_idle h2'
    rw [hk] at hmem1
    have hbusy : (k, startWorking c₀) ∈ ((GetFreeConnector s).2).connectorSet := by
      rw [hset2]; exact List.mem_append_right _ (List.mem_cons_self _ _)
    have := nodup_keys_unique hnd' hmem1 hbusy
    rw [this] at hidle1
    exact absurd hidle1 (by simp [startWorking])

/-- C10: `GetFreeConnector` never changes the registry's membership: the
key list, the size, the token counter and the closed flag are unchanged
whether or not a handle is returned; on a miss the registry is untouched,
and on a hit the only mutation is setting the returned handle's busy flag
(every other entry is preserved verbatim). -/
theorem getFreeConnector_frame (s : AutoClearConnectorSet) :
    keys (GetFreeConnector s).2 = keys s ∧
    Size (GetFreeConnector s).2 = Size s ∧
    ((GetFreeConnector s).2).token = s.token ∧
    ((GetFreeConnector s).2).closed = s.closed ∧
    ((GetFreeConnector s).1 = none → (GetFreeConnector s).2 = s) ∧
    ∀ k c, (GetFreeConnector s).1 = some (k, c) →
      ∃ c₀, (k, c₀) ∈ s.connectorSet ∧ c = startWorking c₀ ∧
        ∀ kv ∈ s.connectorSet, kv.1 ≠ k →
          kv ∈ ((GetFreeConnector s).2).connectorSet := by
  refine ⟨getFreeLoop_keys s.connectorSet, getFreeLoop_length s.connectorSet, rfl, rfl,
    ?_, ?_⟩
  · intro h
    have h2 : (getFreeLoop s.connectorSet).2 = s.connectorSet := (getFreeLoop_none _ h).1
    show { s with connectorSet := (getFreeLoop s.connectorSet).2 } = s
    rw [h2]
  · intro k c h
    obtain ⟨pre, c₀, post, hl, hw, hc, hres, hpre⟩ := getFreeLoop_some _ _ _ h
    refine ⟨c₀, by rw [hl]; exact List.mem_append_right _ (List.mem_cons_self _ _), hc, ?_⟩
    intro kv hkv hne
    have hset2 : ((GetFreeConnector s).2).connectorSet
        = pre ++ (k, startWorking c₀) :: post := hres
    rw [hl] at hkv
    rw [hset2]
    rcases List.mem_append.mp hkv with h' | h'
    · exact List.mem_append_left _ h'
    · rcases List.mem_cons.mp h' with h'' | h''
      · exact absurd (by rw [h'']) hne
      · exact List.mem_append_right _ (List.mem_cons.mpr (Or.inr h''))

/-- C10 witness at a concrete one-element registry. -/
theorem getFreeConnector_frame_witness :
    keys (GetFreeConnector ⟨1, false,
      [(1, ⟨some 5, false, 0, false⟩)]⟩).2
      = keys ⟨1, false, [(1, ⟨some 5, false, 0, false⟩)]⟩ :=
  (getFreeConnector_frame _).1

/-- C1 witness: on a concrete one-element registry the call returns handle
`1`, which was idle before, is busy afterwards, and a second call cannot
return it again. -/
theorem getFreeConnector_exclusive_witness :
    (∃ c₀, (1, c₀) ∈ ([(1, ⟨some 5, false, 0, false⟩)] :
        List (Nat × AtomicConnector)) ∧ c₀.isWorking = false) ∧
    (⟨some 5, true, 0, false⟩ : AtomicConnector).isWorking = true ∧
    ((1 : Nat), (⟨some 5, true, 0, false⟩ : AtomicConnector)) ∈
      ((GetFreeConnector ⟨1, false, [(1, ⟨some 5, false, 0, false⟩)]⟩).2).connectorSet ∧
    ∀ k' c', (GetFreeConnector
        (GetFreeConnector ⟨1, false, [(1, ⟨some 5, false, 0, false⟩)]⟩).2).1
        = some (k', c') → k' ≠ 1 :=
  getFreeConnector_exclusive ⟨1, false, [(1, ⟨some 5, false, 0, false⟩)]⟩ 1
    ⟨some 5, true, 0, false⟩ (by decide) (by decide)

/-- C4: `WorkingNumber` returns the number of registered handles whose busy
flag is set (count of non-idle members), and this is not in general the
registry size. -/
theorem workingNumber_counts_busy_not_size :
    (∀ p : ConnectPoolState,
        PoolWorkingNumber p = p.pool.connectorSet.countP (fun kv => kv.2.isWorking)) ∧
    ∃ p : ConnectPoolState, PoolWorkingNumber p ≠ PoolSize p := by
  constructor
  · intro p
    exact workingNumber_eq_countBusy p.pool
  · refine ⟨⟨1, none, ⟨1, false, [(1, ⟨some 5, false, 0, false⟩)]⟩⟩, ?_⟩
    decide

/-- C8: `SinceLastWorkingTime` returns 0 while the handle is busy; on an
idle handle it returns the elapsed time `now - lastWorkingTime`, and in
particular after the busy-to-idle transition performed at instant `t`
(`StopWorking` stamps `lastWorkingTime := t`) it returns `now - t`. -/
theorem sinceLastWorkingTime_spec (now t : Int) (c : AtomicConnector) :
    (c.isWorking = true → sinceLastWorkingTime now c = 0) ∧
    (c.isWorking = false → sinceLastWorkingTime now c = now - c.lastWorkingTime) ∧
    sinceLastWorkingTime now (stopWorking t c) = now - t := by
  refine ⟨?_, ?_, ?_⟩
  · intro h; simp [sinceLastWorkingTime, AtomicConnector.IsFree, h]
  · intro h; simp [sinceLastWorkingTime, AtomicConnector.IsFree, h]
  · simp [sinceLastWorkingTime, stopWorking, AtomicConnector.IsFree]

/-- C8 witness at a concrete busy handle and a concrete release instant. -/
theorem sinceLastWorkingTime_spec_witness :
    ((⟨some 1, true, 3, false⟩ : AtomicConnector).isWorking = true →
        sinceLastWorkingTime 10 ⟨some 1, true, 3, false⟩ = 0) ∧
    ((⟨some 1, true, 3, false⟩ : AtomicConnector).isWorking = false →
        sinceLastWorkingTime 10 ⟨some 1, true, 3, false⟩
          = 10 - (⟨some 1, true, 3, false⟩ : AtomicConnector).lastWorkingTime) ∧
    sinceLastWorkingTime 10 (stopWorking 4 ⟨some 1, true, 3, false⟩) = 10 - 4 :=
  sinceLastWorkingTime_spec 10 4 ⟨some 1, true, 3, false⟩

/-- C6 counterexample: on a handle whose resource is absent
(`connect = none`) and a non-nil `f`, `Do` does invoke `f` (passing it the
absent value), contradicting the claim that an absent resource makes `Do`
perform no call to `f`. -/
theorem do_calls_f_on_absent_resource :
    (Do ⟨none, false, 0, false⟩ (some (fun _ => Except.ok ())) none).callArg ≠ none := by
  simp [Do]

/-- C6 (amended): `Do` applies `f` to the handle's stored resource — even
when that resource is absent — with any panic captured and routed to the
panic handler when one is present; a nil `f` (and only that) makes `Do` a
no-op. -/
theorem do_spec (c : AtomicConnector)
    (f : Option (Option Resource → Except PanicVal Unit))
    (dp : Option (PanicVal → Unit)) :
    (f = none → Do c f dp = ⟨none, none⟩) ∧
    ∀ g, f = some g →
      (Do c f dp).callArg = some c.connect ∧
      (∀ u, g c.connect = Except.ok u → (Do c f dp).routedPanic = none) ∧
      (∀ p, g c.connect = Except.error p →
        (Do c f dp).routedPanic = dp.map (fun _ => p)) := by
  constructor
  · intro h; rw [h]; rfl
  · intro g hf
    subst hf
    refine ⟨?_, ?_, ?_⟩
    · cases hres : g c.connect <;> simp [Do, hres]
    · intro u hres; simp [Do, hres]
    · intro p hres; cases dp <;> simp [Do, hres]

/-- C6 witness: with a panicking `f` and a present handler, `Do` calls `f`
on the stored resource and routes the panic payload to the handler. -/
theorem do_spec_witness :
    (Do ⟨some 3, false, 0, false⟩ (some (fun _ => Except.error 9))
        (some (fun _ => ()) : Option (PanicVal → Unit))).callArg = some (some 3) ∧
    (Do ⟨some 3, false, 0, false⟩ (some (fun _ => Except.error 9))
        (some (fun _ => ()) : Option (PanicVal → Unit))).routedPanic = some 9 := by
  have h := (do_spec ⟨some 3, false, 0, false⟩ (some (fun _ => Except.error 9))
      (some (fun _ => ()) : Option (PanicVal → Unit))).2 (fun _ => Except.error 9) rfl
  exact ⟨h.1, h.2.2 9 rfl⟩

/-- C2 (code observation): with the registry at cap and holding a released
(idle) connector, an iteration of the `searchConnector` spin loop only
re-checks the size against the cap and yields again — the loop body never
retries `GetFreeConnector` — even though a `GetFreeConnector` call on that
very state would succeed.  The spinning acquirer therefore does not obtain
the released handle; it proceeds only once the registry size drops below
the cap. -/
theorem spin_at_cap_ignores_released_handle :
    searchLoopIter 1 ⟨1, false, [(1, ⟨some 7, false, 0, false⟩)]⟩ = SpinOutcome.yield ∧
    ((GetFreeConnector ⟨1, false, [(1, ⟨some 7, false, 0, false⟩)]⟩).1).isSome = true := by
  decide

/-- C3 (code observation): `Register` on a closed pool (cap 1, connect
returning 42) does not return an absent resource — it creates a fresh
connector, registers it (the registry size becomes 1 although the pool is
closed), and returns its resource, because neither `searchConnector` nor
`AddConnector` consults the `closed` flag. -/
theorem register_after_close_adds_connector :
    (Register 0 ⟨1, some (Except.ok 42), Close ⟨0, false, []⟩⟩).1 = some (1, some 42) ∧
    Size (Register 0 ⟨1, some (Except.ok 42), Close ⟨0, false, []⟩⟩).2 = 1 ∧
    ((Register 0 ⟨1, some (Except.ok 42), Close ⟨0, false, []⟩⟩).2).closed = true := by
  decide

theorem clearScan_closes_spec {now maxFree : Int} {l : List (Nat × AtomicConnector)}
    {kr : Nat × Option Resource} (h : kr ∈ (clearScan now maxFree l).2) :
    ∃ v, (kr.1, v) ∈ l ∧ v.connect = kr.2 ∧ v.connect ≠ none ∧
      maxFree < sinceLastWorkingTime now v := by
  induction l with
  | nil => cases h
  | cons hd rest ih =>
    obtain ⟨k, v⟩ := hd
    by_cases hco : v.connect = none
    · simp only [clearScan, if_pos hco] at h
      obtain ⟨v', hm, hrest⟩ := ih h
      exact ⟨v', List.mem_cons.mpr (Or.inr hm), hrest⟩
    · by_cases hst : maxFree < sinceLastWorkingTime now v
      · simp only [clearScan, if_neg hco, if_pos hst] at h
        rcases List.mem_cons.mp h with h' | h'
        · refine ⟨v, ?_, ?_, hco, hst⟩
          · rw [h']; exact List.mem_cons_self _ _
          · rw [h']
        · obtain ⟨v', hm, hrest⟩ := ih h'
          exact ⟨v', List.mem_cons.mpr (Or.inr hm), hrest⟩
      · simp only [clearScan, if_neg hco, if_neg hst] at h
        obtain ⟨v', hm, hrest⟩ := ih h
        exact ⟨v', List.mem_cons.mpr (Or.inr hm), hrest⟩

theorem clearScan_closes_keys_sublist (now maxFree : Int)
    (l : List (Nat × AtomicConnector)) :
    ((clearScan now maxFree l).2.map Prod.fst).Sublist (l.map Prod.fst) := by
  induction l with
  | nil => simp [clearScan]
  | cons hd rest ih =>
    obtain ⟨k, v⟩ := hd
    by_cases hco : v.connect = none
    · simp only [clearScan, if_pos hco, List.map_cons]
      exact ih.cons _
    · by_cases hst : maxFree < sinceLastWorkingTime now v
      · simp only [clearScan, if_neg hco, if_pos hst, List.map_cons]
        exact ih.cons₂ _
      · simp only [clearScan, if_neg hco, if_neg hst, List.map_cons]
        exact ih.cons _

theorem clearScan_removes {now maxFree : Int} {l : List (Nat × AtomicConnector)}
    {k : Nat} {v : AtomicConnector} (hm : (k, v) ∈ l)
    (hq : v.connect = none ∨ maxFree < sinceLastWorkingTime now v) :
    k ∈ (clearScan now maxFree l).1 := by
  induction l with
  | nil => cases hm
  | cons hd rest ih =>
    obtain ⟨k', v'⟩ := hd
    rcases List.mem_cons.mp hm with he | hm'
    · rw [Prod.mk.injEq] at he
      obtain ⟨hk, hv⟩ := he
      subst hk
      by_cases hco : v'.connect = none
      · simp only [clearScan, if_pos hco]
        exact List.mem_cons_self _ _
      · have hst : maxFree < sinceLastWorkingTime now v' := by
          rcases hq with h | h
          · exact absurd (hv ▸ h) hco
          · exact hv ▸ h
        simp only [clearScan, if_neg hco, if_pos hst]
        exact List.mem_cons_self _ _
    · have hin := ih hm'
      by_cases hco : v'.connect = none
      · simp only [clearScan, if_pos hco]
        exact List.mem_cons.mpr (Or.inr hin)
      · by_cases hst : maxFree < sinceLastWorkingTime now v'
        · simp only [clearScan, if_neg hco, if_pos hst]
          exact List.mem_cons.mpr (Or.inr hin)
        · simpa only [clearScan, if_neg hco, if_neg hst] using hin

theorem busy_since_zero (now : Int) {v : AtomicConnector} (h : v.isWorking = true) :
    sinceLastWorkingTime now v = 0 := by
  simp [sinceLastWorkingTime, AtomicConnector.IsFree, h]

/-- C5: during one sweep (`Clear`) with a non-negative idle threshold, the
close method is invoked at most once per handle, only on handles that are
idle with `SinceLastWorkingTime > maxFreeTime` and whose resource is
present; and every handle of either removal category — absent resource, or
stale idle — is gone from the registry when the sweep returns. -/
theorem clear_close_discipline (now maxFreeTime : Int) (s : AutoClearConnectorSet)
    (hmf : 0 ≤ maxFreeTime) (hnd : (keys s).Nodup) :
    (∀ kr ∈ (Clear now maxFreeTime s).2, ∃ v, (kr.1, v) ∈ s.connectorSet ∧
        v.isWorking = false ∧ v.connect = kr.2 ∧ kr.2 ≠ none ∧
        maxFreeTime < sinceLastWorkingTime now v) ∧
    ((Clear now maxFreeTime s).2.map Prod.fst).Nodup ∧
    (∀ kv ∈ s.connectorSet,
        (kv.2.connect = none ∨
          (kv.2.isWorking = false ∧ maxFreeTime < sinceLastWorkingTime now kv.2)) →
        kv.1 ∉ keys (Clear now maxFreeTime s).1) := by
  refine ⟨?_, ?_, ?_⟩
  · intro kr hkr
    have hkr' : kr ∈ (clearScan now maxFreeTime s.connectorSet).2 := hkr
    obtain ⟨v, hm, hcv, hcn, hst⟩ := clearScan_closes_spec hkr'
    have hidle : v.isWorking = false := by
      cases hw : v.isWorking with
      | false => rfl
      | true =>
        rw [busy_since_zero now hw] at hst
        omega
    exact ⟨v, hm, hidle, hcv, hcv ▸ hcn, hst⟩
  · exact (clearScan_closes_keys_sublist now maxFreeTime s.connectorSet).nodup hnd
  · intro kv hkv hq
    have hrl : kv.1 ∈ (clearScan now maxFreeTime s.connectorSet).1 := by
      refine clearScan_removes hkv ?_
      rcases hq with h | h
      · exact Or.inl h
      · exact Or.inr h.2
    intro hcontra
    obtain ⟨kv', hkv', hfst⟩ := List.mem_map.mp hcontra
    have hmem := List.mem_filter.mp hkv'
    have : kv'.1 ∉ (clearScan now maxFreeTime s.connectorSet).1 :=
      of_decide_eq_true hmem.2
    rw [hfst] at this
    exact this hrl

/-- C5 witness: a four-handle registry (absent, stale idle, fresh idle,
busy) with threshold 1 at instant 10: the close keys are nodup and the
stale idle handle is removed. -/
theorem clear_close_discipline_witness :
    ((Clear 10 1 ⟨4, false,
        [(1, ⟨none, false, 0, false⟩), (2, ⟨some 5, false, 0, false⟩),
         (3, ⟨some 6, false, 10, false⟩), (4, ⟨some 7, true, 0, false⟩)]⟩).2.map
      Prod.fst).Nodup ∧
    (((2 : Nat), (⟨some 5, false, 0, false⟩ : AtomicConnector)) ∈
        ([(1, ⟨none, false, 0, false⟩), (2, ⟨some 5, false, 0, false⟩),
          (3, ⟨some 6, false, 10, false⟩), (4, ⟨some 7, true, 0, false⟩)] :
          List (Nat × AtomicConnector)) →
      ((⟨some 5, false, 0, false⟩ : AtomicConnector).connect = none ∨
        ((⟨some 5, false, 0, false⟩ : AtomicConnector).isWorking = false ∧
          (1 : Int) < sinceLastWorkingTime 10 ⟨some 5, false, 0, false⟩)) →
      (2 : Nat) ∉ keys (Clear 10 1 ⟨4, false,
        [(1, ⟨none, false, 0, false⟩), (2, ⟨some 5, false, 0, false⟩),
         (3, ⟨some 6, false, 10, false⟩), (4, ⟨some 7, true, 0, false⟩)]⟩).1) := by
  have h := clear_close_discipline 10 1 ⟨4, false,
      [(1, ⟨none, false, 0, false⟩), (2, ⟨some 5, false, 0, false⟩),
       (3, ⟨some 6, false, 10, false⟩), (4, ⟨some 7, true, 0, false⟩)]⟩
    (by decide) (by decide)
  exact ⟨h.2.1, h.2.2 (2, ⟨some 5, false, 0, false⟩)⟩

theorem setKey_connectorSet (k : Nat) (f : AtomicConnector → AtomicConnector)
    (s : AutoClearConnectorSet) :
    (setKey k f s).connectorSet
      = s.connectorSet.map (fun kv => if kv.1 = k then (kv.1, f kv.2) else kv) := rfl

theorem findToken_eq {ks : List Nat} {t : Nat} (h : (t + 1) ∉ ks) (n : Nat) :
    findToken (n + 1) ks t = t + 1 := by
  simp [findToken, h]

theorem nodup_middle {pre post : List (Nat × AtomicConnector)} {k : Nat}
    {c₀ : AtomicConnector}
    (hnd : ((pre ++ (k, c₀) :: post).map Prod.fst).Nodup) :
    k ∉ pre.map Prod.fst ∧ k ∉ post.map Prod.fst := by
  rw [List.map_append, List.map_cons] at hnd
  refine ⟨fun hk => ?_, ?_⟩
  · exact (List.disjoint_of_nodup_append hnd) hk (List.mem_cons_self _ _)
  · exact (List.nodup_cons.mp (List.nodup_append.mp hnd).2.1).1

theorem startWorking_idem (c : AtomicConnector) :
    startWorking (startWorking c) = startWorking c := rfl

/-- C7: on a pool state with at least one idle handle or one free slot,
`Register` returns a handle, and `StopWorking` on that handle (the release
closure) restores `WorkingNumber` to its value before the acquisition. -/
theorem register_release_restores_workingNumber
    (now rel : Int) (p : ConnectPoolState)
    (hnd : (keys p.pool).Nodup)
    (htok : ∀ k ∈ keys p.pool, k ≤ p.pool.token)
    (hfree : (∃ kv ∈ p.pool.connectorSet, kv.2.isWorking = false) ∨
      Size p.pool < p.cap) :
    ∃ k r s', Register now p = (some (k, r), s') ∧
      WorkingNumber (setKey k (stopWorking rel) s') = WorkingNumber p.pool := by
  rcases hg : GetFreeConnector p.pool with ⟨o, s₁⟩
  cases o with
  | some kc =>
    obtain ⟨k, c⟩ := kc
    have h1 : (getFreeLoop p.pool.connectorSet).1 = some (k, c) := by
      have h : (GetFreeConnector p.pool).1 = some (k, c) := by rw [hg]
      exact h
    obtain ⟨pre, c₀, post, hl, hw, hc, hres2, hpre⟩ := getFreeLoop_some _ _ _ h1
    have hs₁ : s₁.connectorSet = pre ++ (k, startWorking c₀) :: post := by
      have h2 : (GetFreeConnector p.pool).2 = s₁ := by rw [hg]
      rw [← h2]
      exact hres2
    have hks : k ∉ pre.map Prod.fst ∧ k ∉ post.map Prod.fst := by
      apply nodup_middle
      rw [← hl]
      exact hnd
    have hreg : Register now p = (some (k, c.connect), setKey k startWorking s₁) := by
      simp only [Register, searchConnector, hg]
    refine ⟨k, c.connect, setKey k startWorking s₁, hreg, ?_⟩
    have hs₂ : (setKey k startWorking s₁).connectorSet
        = pre ++ (k, startWorking c₀) :: post := by
      show s₁.connectorSet.map _ = _
      rw [hs₁, setKeyFun_append (startWorking c₀) startWorking hks.1 hks.2,
        startWorking_idem]
    have hs₃ : (setKey k (stopWorking rel) (setKey k startWorking s₁)).connectorSet
        = pre ++ (k, stopWorking rel (startWorking c₀)) :: post := by
      show (setKey k startWorking s₁).connectorSet.map _ = _
      rw [hs₂, setKeyFun_append (startWorking c₀) (stopWorking rel) hks.1 hks.2]
    rw [workingNumber_eq_countBusy, workingNumber_eq_countBusy, hs₃, hl]
    simp [List.countP_append, List.countP_cons, stopWorking, hw]
  | none =>
    have h1 : (getFreeLoop p.pool.connectorSet).1 = none := by
      have h : (GetFreeConnector p.pool).1 = none := by rw [hg]
      exact h
    obtain ⟨hsame, hall⟩ := getFreeLoop_none _ h1
    have hs₁ : s₁ = p.pool := by
      have h2 : (GetFreeConnector p.pool).2 = s₁ := by rw [hg]
      rw [← h2]
      show { p.pool with connectorSet := (getFreeLoop p.pool.connectorSet).2 } = p.pool
      rw [hsame]
    have hsz : Size p.pool < p.cap := by
      rcases hfree with ⟨kv, hkv, hidle⟩ | h
      · rw [hall kv hkv] at hidle; cases hidle
      · exact h
    have htokfresh : (p.pool.token + 1) ∉ keys p.pool := fun hx => by
      have := htok _ hx
      omega
    have htk : findToken (Size p.pool + 1) (keys p.pool) p.pool.token
        = p.pool.token + 1 := findToken_eq htokfresh _
    have hreg : Register now p = (some (p.pool.token + 1,
        (newConnector now p.connectMethod).connect),
        setKey (p.pool.token + 1) startWorking
          { p.pool with
            token := p.pool.token + 1
            connectorSet := (p.pool.token + 1, newConnector now p.connectMethod)
              :: p.pool.connectorSet }) := by
      simp only [Register, searchConnector, hg, hs₁]
      rw [if_pos hsz]
      simp only [AddConnector, htk]
    refine ⟨_, _, _, hreg, ?_⟩
    have hcs : ({ p.pool with
        token := p.pool.token + 1
        connectorSet := (p.pool.token + 1, newConnector now p.connectMethod)
          :: p.pool.connectorSet } : AutoClearConnectorSet).connectorSet
        = (p.pool.token + 1, newConnector now p.connectMethod)
          :: p.pool.connectorSet := rfl
    rw [workingNumber_eq_countBusy, workingNumber_eq_countBusy,
      setKey_connectorSet, setKey_connectorSet, hcs]
    rw [List.map_cons, map_setKeyFun_of_not_mem startWorking htokfresh]
    rw [List.map_cons, map_setKeyFun_of_not_mem (stopWorking rel) htokfresh]
    simp [List.countP_cons, stopWorking, startWorking]

/-- C7 witness: an empty pool of capacity 1 — the acquire-release round
trip leaves `WorkingNumber` at 0. -/
theorem register_release_restores_workingNumber_witness :
    ∃ k r s', Register 0 ⟨1, some (Except.ok 7), ⟨0, false, []⟩⟩ = (some (k, r), s') ∧
      WorkingNumber (setKey k (stopWorking 5) s')
        = WorkingNumber (⟨0, false, []⟩ : AutoClearConnectorSet) :=
  register_release_restores_workingNumber 0 5 ⟨1, some (Except.ok 7), ⟨0, false, []⟩⟩
    (by decide) (by intro k hk; cases hk) (Or.inr (by decide))

end ConnectPool
